import Mathlib

/-!
# GPIO JTAG cable driver (`src/tap/cable/gpio.c`)

A shallow embedding of the bit-banging cable driver and the properties of it
that its specification states.

Conventions of the embedding.

* A C `int` or `uint32_t` that the driver uses as a set of signal bits is
  represented by its 32-bit two-complement bit pattern, a `Nat`; `&` and `|`
  are `&&&` and `|||`, and `~` is `cnot` (exclusive or with `0xFFFFFFFF`).
* A pointer is an `Option`: `none` is `NULL`.  An operation that dereferences
  `cable->params` has no result (`none`) when that pointer is `NULL`.
* The line provider (libgpiod), the pacing primitive `urj_tap_cable_wait` and
  the allocator are outside the driver.  They are represented by `Gpiod`: the
  answers the provider gives (fields that no operation changes) and the log of
  the calls the driver has issued.  The level of a line is read off the log: it
  is the value of the last accepted write to that line.
-/

namespace GpioCable

/-! ## Declarations taken from headers that the driver includes -/

/-- Status codes `URJ_STATUS_OK` and `URJ_STATUS_FAIL` of `urjtag`. -/
inductive urj_status where
  | URJ_STATUS_OK
  | URJ_STATUS_FAIL
deriving DecidableEq

/-- Error kinds the driver reports through `urj_error_set`. -/
inductive urj_error where
  | URJ_ERROR_OUT_OF_MEMORY
  | URJ_ERROR_SYNTAX
deriving DecidableEq

/-- Keys of a cable parameter; the driver tells four of them apart and takes
the `default:` branch on every other one. -/
inductive urj_cable_param_key where
  | URJ_CABLE_PARAM_KEY_TDI
  | URJ_CABLE_PARAM_KEY_TDO
  | URJ_CABLE_PARAM_KEY_TMS
  | URJ_CABLE_PARAM_KEY_TCK
  | other (k : Nat)
deriving DecidableEq

/-- One `urj_param_t`: its key and its `value.lu` (an `unsigned long`). -/
structure urj_param_t where
  key : urj_cable_param_key
  lu : Nat
deriving DecidableEq

/-- Modelled from the spec: the values of the signal selectors
`URJ_POD_CS_TDI`, `URJ_POD_CS_TCK`, `URJ_POD_CS_TMS` and `URJ_POD_CS_TRST` are
declared in a header that is not part of the sources.  The specification calls
each of them a single bit, so the embedding is parametric in the position of
each bit. -/
structure PodBits where
  tdi : Nat
  tck : Nat
  tms : Nat
  trst : Nat
deriving DecidableEq

/-- Selector `URJ_POD_CS_TDI`. -/
def URJ_POD_CS_TDI (S : PodBits) : Nat := 2 ^ S.tdi

/-- Selector `URJ_POD_CS_TCK`. -/
def URJ_POD_CS_TCK (S : PodBits) : Nat := 2 ^ S.tck

/-- Selector `URJ_POD_CS_TMS`. -/
def URJ_POD_CS_TMS (S : PodBits) : Nat := 2 ^ S.tms

/-- Selector `URJ_POD_CS_TRST`. -/
def URJ_POD_CS_TRST (S : PodBits) : Nat := 2 ^ S.trst

/-- The selectors are four different bits of a (positive) `int`. -/
def PodBits.wf (S : PodBits) : Prop :=
  S.tdi < 31 ∧ S.tck < 31 ∧ S.tms < 31 ∧ S.trst < 31 ∧
  S.tdi ≠ S.tck ∧ S.tdi ≠ S.tms ∧ S.tck ≠ S.tms ∧
  S.trst ≠ S.tdi ∧ S.trst ≠ S.tck ∧ S.trst ≠ S.tms

instance (S : PodBits) : Decidable S.wf := by
  unfold PodBits.wf; infer_instance

/-- The bit positions `urjtag` itself uses: TDI, TCK, TMS, TRST are bits 0 to 3. -/
def urjtagBits : PodBits := ⟨0, 1, 2, 3⟩

/-- The mask `URJ_POD_CS_TDI | URJ_POD_CS_TCK | URJ_POD_CS_TMS` as the driver
writes it in `gpio_set_signal`. -/
def triad (S : PodBits) : Nat :=
  URJ_POD_CS_TDI S ||| URJ_POD_CS_TCK S ||| URJ_POD_CS_TMS S

/-- The C operator `~` on the bit pattern of a 32-bit integer. -/
def cnot (x : Nat) : Nat := (2 ^ 32 - 1) ^^^ x

/-! ## The pin mapping -/

/-- Enumerator `GPIO_UNSET = -1`, as it reads once stored in an `unsigned int`. -/
def GPIO_UNSET : Nat := 2 ^ 32 - 1

/-- Enumerator `GPIO_TDI`. -/
def GPIO_TDI : Nat := 0

/-- Enumerator `GPIO_TCK`. -/
def GPIO_TCK : Nat := 1

/-- Enumerator `GPIO_TMS`. -/
def GPIO_TMS : Nat := 2

/-- Enumerator `GPIO_TDO`. -/
def GPIO_TDO : Nat := 3

/-- Enumerator `GPIO_REQUIRED`. -/
def GPIO_REQUIRED : Nat := 4

/-- The array `unsigned int jtag_gpios[4]`, one field per index. -/
structure Gpios where
  g0 : Nat
  g1 : Nat
  g2 : Nat
  g3 : Nat
deriving DecidableEq

/-- Array read `jtag_gpios[i]`. -/
def Gpios.get (g : Gpios) (i : Nat) : Nat :=
  if i = 0 then g.g0 else if i = 1 then g.g1 else if i = 2 then g.g2 else g.g3

/-- Array write `jtag_gpios[i] = v`. -/
def Gpios.set (g : Gpios) (i : Nat) (v : Nat) : Gpios :=
  if i = 0 then { g with g0 := v } else if i = 1 then { g with g1 := v }
  else if i = 2 then { g with g2 := v } else { g with g3 := v }

/-- The driver's parameter block `gpio_params_t`; `request` is the handle of
the line request, `none` for `NULL`. -/
structure gpio_params_t where
  jtag_gpios : Gpios
  signals : Nat
  lastout : Nat
  request : Option Nat
deriving DecidableEq

/-- The fields of `urj_cable_t` the driver touches. -/
structure urj_cable_t where
  params : Option gpio_params_t
  chain : Option Nat
  delay : Nat
deriving DecidableEq

/-! ## The line provider -/

/-- Direction of a line in a `gpiod_line_settings`. -/
inductive gpiod_line_direction where
  | GPIOD_LINE_DIRECTION_AS_IS
  | GPIOD_LINE_DIRECTION_INPUT
  | GPIOD_LINE_DIRECTION_OUTPUT
deriving DecidableEq

/-- The value `GPIOD_LINE_VALUE_INACTIVE`. -/
def GPIOD_LINE_VALUE_INACTIVE : Int := 0

/-- A `gpiod_line_settings` object: direction and initial output value. -/
structure gpiod_line_settings where
  direction : gpiod_line_direction
  output_value : Int
deriving DecidableEq

/-- What `gpiod_line_settings_new` returns. -/
def gpiod_line_settings_new : gpiod_line_settings :=
  ⟨gpiod_line_direction.GPIOD_LINE_DIRECTION_AS_IS, GPIOD_LINE_VALUE_INACTIVE⟩

/-- A call the driver issues to the line provider or to the pacing primitive. -/
inductive GpiodCall where
  | chip_open
  | request_lines (cfg : List (Nat × gpiod_line_settings))
  | set_value (request : Option Nat) (offset : Nat) (value : Int)
  | get_value (request : Option Nat) (offset : Nat)
  | release (request : Option Nat)
  | cable_wait (delay : Nat)
deriving DecidableEq

/-- The world outside the driver.  All fields but `calls` are the answers of
the provider and are never changed by the driver:
`chip`: `gpiod_chip_open` returns a chip;
`line_cfg`: `gpiod_line_config_new` returns an object;
`settings i`: `gpiod_line_settings_new` returns an object in round `i`;
`add_line i`: `gpiod_line_config_add_line_settings` returns 0 in round `i`;
`rconfig`: `gpiod_request_config_new` returns an object;
`grant`: the handle `gpiod_chip_request_lines` returns;
`accepts r l`: `gpiod_line_request_set_value r l _` returns 0;
`sample l`: what `gpiod_line_request_get_value` returns for line `l`;
`idle l`: the level of line `l` before the first logged call;
`calls`: the calls issued so far, oldest first. -/
structure Gpiod where
  chip : Bool
  line_cfg : Bool
  settings : Nat → Bool
  add_line : Nat → Bool
  rconfig : Bool
  grant : Option Nat
  accepts : Option Nat → Nat → Bool
  sample : Nat → Int
  idle : Nat → Int
  calls : List GpiodCall

/-- Append a call to the log. -/
def Gpiod.log (hw : Gpiod) (c : GpiodCall) : Gpiod :=
  { hw with calls := hw.calls ++ [c] }

/-- Effect of one line of a granted request on the levels: an output line
starts at its configured output value. -/
def applySetting (lv : Nat → Int) (e : Nat × gpiod_line_settings) : Nat → Int :=
  if e.2.direction = gpiod_line_direction.GPIOD_LINE_DIRECTION_OUTPUT then
    fun l => if l = e.1 then e.2.output_value else lv l
  else lv

/-- Effect of one call on the levels of the lines: an accepted write sets the
level of its line, a granted request sets its output lines to their initial
values, every other call leaves the levels alone. -/
def Gpiod.apply (hw : Gpiod) (lv : Nat → Int) : GpiodCall → Nat → Int
  | GpiodCall.set_value r off v =>
      if hw.accepts r off then fun l => if l = off then v else lv l else lv
  | GpiodCall.request_lines cfg =>
      if hw.grant.isSome then cfg.foldl applySetting lv else lv
  | _ => lv

/-- Levels of the lines after a list of calls, starting from levels `lv`. -/
def Gpiod.levelsFrom (hw : Gpiod) (lv : Nat → Int) (cs : List GpiodCall) : Nat → Int :=
  cs.foldl hw.apply lv

/-- Current level of a line: the last level written to it. -/
def Gpiod.level (hw : Gpiod) (l : Nat) : Int :=
  hw.levelsFrom hw.idle hw.calls l

/-- The levels one line takes after each call of a list, in order. -/
def Gpiod.wave (hw : Gpiod) (line : Nat) : (Nat → Int) → List GpiodCall → List Int
  | _, [] => []
  | lv, c :: cs => hw.apply lv c line :: Gpiod.wave hw line (hw.apply lv c) cs

/-- Number of low→high→low pulses in a sequence of levels that follows level
`prev`; `armed` says that the line is high because of a rising edge already
seen in the sequence. -/
def countPulses : Bool → Int → List Int → Nat
  | _, _, [] => 0
  | armed, prev, x :: xs =>
      if prev = 0 ∧ x ≠ 0 then countPulses true x xs
      else if prev ≠ 0 ∧ x = 0 then (if armed then 1 else 0) + countPulses false x xs
      else countPulses armed x xs

/-! ## The driver -/

open urj_status urj_error urj_cable_param_key gpiod_line_direction

/-- Source `gpio_set_value`: one write through the line request; the status
tells whether the provider returned 0. -/
def gpio_set_value (hw : Gpiod) (cable : urj_cable_t) (pin : Nat) (value : Int) :
    Option (urj_status × Gpiod) :=
  match cable.params with
  | none => none
  | some p =>
    let ret := hw.accepts p.request pin
    let hw1 := hw.log (GpiodCall.set_value p.request pin value)
    if !ret then some (URJ_STATUS_FAIL, hw1) else some (URJ_STATUS_OK, hw1)

/-- Source `gpio_get_value`: one read through the line request. -/
def gpio_get_value (hw : Gpiod) (cable : urj_cable_t) (pin : Nat) : Option (Int × Gpiod) :=
  match cable.params with
  | none => none
  | some p => some (hw.sample pin, hw.log (GpiodCall.get_value p.request pin))

/-- The `for` loop of `gpio_open`, `k` rounds from index `i`: builds the line
configuration, `none` when a round returns `URJ_STATUS_FAIL`. -/
def gpio_open_lines (hw : Gpiod) (p : gpio_params_t) :
    Nat → Nat → List (Nat × gpiod_line_settings) → Option (List (Nat × gpiod_line_settings))
  | 0, _, cfg => some cfg
  | k + 1, i, cfg =>
    if !hw.settings i then none
    else
      let settings :=
        if i = GPIO_TDO then
          { gpiod_line_settings_new with direction := GPIOD_LINE_DIRECTION_INPUT }
        else
          { gpiod_line_settings_new with
              direction := GPIOD_LINE_DIRECTION_OUTPUT
              output_value := GPIOD_LINE_VALUE_INACTIVE }
      if !hw.add_line i then none
      else gpio_open_lines hw p k (i + 1) (cfg ++ [(p.jtag_gpios.get i, settings)])

/-- Source `gpio_open`: requests the four lines.  A chip that cannot be opened
is reported as success, with no request stored. -/
def gpio_open (hw : Gpiod) (cable : urj_cable_t) : Option (urj_status × urj_cable_t × Gpiod) :=
  match cable.params with
  | none => none
  | some p =>
    let hw1 := hw.log GpiodCall.chip_open
    if !hw.chip then some (URJ_STATUS_OK, cable, hw1)
    else if !hw.line_cfg then some (URJ_STATUS_FAIL, cable, hw1)
    else
      match gpio_open_lines hw p GPIO_REQUIRED 0 [] with
      | none => some (URJ_STATUS_FAIL, cable, hw1)
      | some cfg =>
        if !hw.rconfig then some (URJ_STATUS_FAIL, cable, hw1)
        else
          let hw2 := hw1.log (GpiodCall.request_lines cfg)
          match hw.grant with
          | none => some (URJ_STATUS_FAIL, cable, hw2)
          | some request =>
            some (URJ_STATUS_OK, { cable with params := some { p with request := some request } }, hw2)

/-- Source `gpio_close`: releases whatever `p->request` holds. -/
def gpio_close (hw : Gpiod) (cable : urj_cable_t) : Option (urj_status × Gpiod) :=
  match cable.params with
  | none => none
  | some p => some (URJ_STATUS_OK, hw.log (GpiodCall.release p.request))

/-- Outcome of `gpio_connect`: the status, the error set, whether the usage
text was printed, the cable (`none` once freed) and the parameter block that
`calloc` returned, as it stands at the return. -/
structure connect_result where
  status : urj_status
  error : Option urj_error
  help : Bool
  cable : Option urj_cable_t
  block : Option gpio_params_t
deriving DecidableEq

/-- The parameter loop of `gpio_connect`. -/
def gpio_connect_params (cp : gpio_params_t) : List urj_param_t → gpio_params_t
  | [] => cp
  | q :: rest =>
    let cp1 :=
      match q.key with
      | URJ_CABLE_PARAM_KEY_TDI =>
          { cp with jtag_gpios := cp.jtag_gpios.set GPIO_TDI (q.lu % 2 ^ 32) }
      | URJ_CABLE_PARAM_KEY_TDO =>
          { cp with jtag_gpios := cp.jtag_gpios.set GPIO_TDO (q.lu % 2 ^ 32) }
      | URJ_CABLE_PARAM_KEY_TMS =>
          { cp with jtag_gpios := cp.jtag_gpios.set GPIO_TMS (q.lu % 2 ^ 32) }
      | URJ_CABLE_PARAM_KEY_TCK =>
          { cp with jtag_gpios := cp.jtag_gpios.set GPIO_TCK (q.lu % 2 ^ 32) }
      | other _ => cp
    gpio_connect_params cp1 rest

/-- The block `calloc (1, sizeof (*cable_params))` returns: all zero. -/
def calloc_params : gpio_params_t := ⟨⟨0, 0, 0, 0⟩, 0, 0, none⟩

/-- Source `gpio_connect`.  `mem` tells whether `calloc` succeeds; `params` is
`none` for a `NULL` parameter array. -/
def gpio_connect (mem : Bool) (cable : urj_cable_t) (params : Option (List urj_param_t)) :
    connect_result :=
  if !mem then
    ⟨URJ_STATUS_FAIL, some URJ_ERROR_OUT_OF_MEMORY, false, none, none⟩
  else
    let cp0 := calloc_params
    let cp1 := { cp0 with jtag_gpios := cp0.jtag_gpios.set GPIO_TDI GPIO_UNSET }
    let cp2 := { cp1 with jtag_gpios := cp1.jtag_gpios.set GPIO_TDO GPIO_UNSET }
    let cp3 := { cp2 with jtag_gpios := cp2.jtag_gpios.set GPIO_TMS GPIO_UNSET }
    let cp4 := { cp3 with jtag_gpios := cp3.jtag_gpios.set GPIO_TCK GPIO_UNSET }
    let cable_params :=
      match params with
      | none => cp4
      | some ps => gpio_connect_params cp4 ps
    if (List.range GPIO_REQUIRED).any (fun i => cable_params.jtag_gpios.get i == GPIO_UNSET) then
      ⟨URJ_STATUS_FAIL, some URJ_ERROR_SYNTAX, true, some cable, some cable_params⟩
    else
      ⟨URJ_STATUS_OK, none, false,
        some { cable with params := some cable_params, chain := none, delay := 1000 },
        some cable_params⟩

/-- Source `gpio_init`. -/
def gpio_init (S : PodBits) (hw : Gpiod) (cable : urj_cable_t) :
    Option (urj_status × urj_cable_t × Gpiod) :=
  match gpio_open hw cable with
  | none => none
  | some (st, cable1, hw1) =>
    if st ≠ URJ_STATUS_OK then some (URJ_STATUS_FAIL, cable1, hw1)
    else
      match cable1.params with
      | none => none
      | some p =>
        some (URJ_STATUS_OK, { cable1 with params := some { p with signals := URJ_POD_CS_TRST S } }, hw1)

/-- Source `gpio_done`. -/
def gpio_done (hw : Gpiod) (cable : urj_cable_t) : Option Gpiod :=
  match gpio_close hw cable with
  | none => none
  | some (_, hw1) => some hw1

/-- The `for` loop of `gpio_clock`, `k` rounds. -/
def gpio_clock_loop (cable : urj_cable_t) (tck : Nat) : Nat → Gpiod → Option Gpiod
  | 0, hw => some hw
  | k + 1, hw =>
    match gpio_set_value hw cable tck 0 with
    | none => none
    | some (_, hw1) =>
      match gpio_set_value hw1 cable tck 1 with
      | none => none
      | some (_, hw2) =>
        match gpio_set_value hw2 cable tck 0 with
        | none => none
        | some (_, hw3) => gpio_clock_loop cable tck k hw3

/-- Source `gpio_clock`; `n` is a C `int`, so the loop runs `n.toNat` rounds. -/
def gpio_clock (hw : Gpiod) (cable : urj_cable_t) (tms tdi n : Int) : Option Gpiod :=
  match cable.params with
  | none => none
  | some p =>
    let tms1 : Int := if tms ≠ 0 then 1 else 0
    let tdi1 : Int := if tdi ≠ 0 then 1 else 0
    match gpio_set_value hw cable (p.jtag_gpios.get GPIO_TMS) tms1 with
    | none => none
    | some (_, hw1) =>
      match gpio_set_value hw1 cable (p.jtag_gpios.get GPIO_TDI) tdi1 with
      | none => none
      | some (_, hw2) => gpio_clock_loop cable (p.jtag_gpios.get GPIO_TCK) n.toNat hw2

/-- Source `gpio_get_tdo`. -/
def gpio_get_tdo (S : PodBits) (hw : Gpiod) (cable : urj_cable_t) :
    Option (Int × urj_cable_t × Gpiod) :=
  match cable.params with
  | none => none
  | some p =>
    match gpio_set_value hw cable (p.jtag_gpios.get GPIO_TCK) 0 with
    | none => none
    | some (_, hw1) =>
      match gpio_set_value hw1 cable (p.jtag_gpios.get GPIO_TDI) 0 with
      | none => none
      | some (_, hw2) =>
        match gpio_set_value hw2 cable (p.jtag_gpios.get GPIO_TMS) 0 with
        | none => none
        | some (_, hw3) =>
          let p1 := { p with lastout :=
            p.lastout &&& cnot (URJ_POD_CS_TMS S ||| URJ_POD_CS_TDI S ||| URJ_POD_CS_TCK S) }
          let cable1 := { cable with params := some p1 }
          let hw4 := hw3.log (GpiodCall.cable_wait cable1.delay)
          match gpio_get_value hw4 cable1 (p1.jtag_gpios.get GPIO_TDO) with
          | none => none
          | some (v, hw5) => some (v, cable1, hw5)

/-- Source `gpio_current_signals`. -/
def gpio_current_signals (S : PodBits) (cable : urj_cable_t) : Option Nat :=
  match cable.params with
  | none => none
  | some p =>
    let sigs := p.signals &&& cnot (URJ_POD_CS_TMS S ||| URJ_POD_CS_TDI S ||| URJ_POD_CS_TCK S)
    let sigs1 := if p.lastout &&& URJ_POD_CS_TCK S ≠ 0 then sigs ||| URJ_POD_CS_TCK S else sigs
    let sigs2 := if p.lastout &&& URJ_POD_CS_TDI S ≠ 0 then sigs1 ||| URJ_POD_CS_TDI S else sigs1
    let sigs3 := if p.lastout &&& URJ_POD_CS_TMS S ≠ 0 then sigs2 ||| URJ_POD_CS_TMS S else sigs2
    some sigs3

/-- One guarded write of `gpio_set_signal`:
`if (mask & sel) gpio_set_value (cable, pin, val & sel);`. -/
def gpio_set_signal_line (hw : Gpiod) (cable : urj_cable_t) (mask val sel pin : Nat) :
    Option Gpiod :=
  if mask &&& sel ≠ 0 then
    match gpio_set_value hw cable pin ((val &&& sel : Nat) : Int) with
    | none => none
    | some (_, hw1) => some hw1
  else some hw

/-- Source `gpio_set_signal`. -/
def gpio_set_signal (S : PodBits) (hw : Gpiod) (cable : urj_cable_t) (mask val : Nat) :
    Option (Nat × urj_cable_t × Gpiod) :=
  match gpio_current_signals S cable with
  | none => none
  | some prev_sigs =>
    match cable.params with
    | none => none
    | some p =>
      let mask1 := mask &&& (URJ_POD_CS_TDI S ||| URJ_POD_CS_TCK S ||| URJ_POD_CS_TMS S)
      let written : Option Gpiod :=
        if mask1 ≠ 0 then
          match gpio_set_signal_line hw cable mask1 val (URJ_POD_CS_TMS S)
              (p.jtag_gpios.get GPIO_TMS) with
          | none => none
          | some hw1 =>
            match gpio_set_signal_line hw1 cable mask1 val (URJ_POD_CS_TDI S)
                (p.jtag_gpios.get GPIO_TDI) with
            | none => none
            | some hw2 =>
              gpio_set_signal_line hw2 cable mask1 val (URJ_POD_CS_TCK S)
                (p.jtag_gpios.get GPIO_TCK)
        else some hw
      match written with
      | none => none
      | some hw3 =>
        some (prev_sigs, { cable with params := some { p with lastout := val &&& mask1 } }, hw3)

/-- Source `gpio_get_signal`. -/
def gpio_get_signal (S : PodBits) (cable : urj_cable_t) (sig : Nat) : Option Nat :=
  match gpio_current_signals S cable with
  | none => none
  | some sigs => some (if sigs &&& sig ≠ 0 then 1 else 0)

/-! ## Vocabulary of the properties -/

/-- The combined signal state in closed form: the static signals with the
TDI/TCK/TMS bits cleared, or-ed with the TDI/TCK/TMS bits of the output mask. -/
def combined (S : PodBits) (signals lastout : Nat) : Nat :=
  (signals &&& cnot (triad S)) ||| (lastout &&& triad S)

/-- Append a list of calls to the log. -/
def Gpiod.logs (hw : Gpiod) (cs : List GpiodCall) : Gpiod :=
  { hw with calls := hw.calls ++ cs }

/-- The calls `n` rounds of the clock loop issue on line `tck`. -/
def tckBurst (r : Option Nat) (tck : Nat) : Nat → List GpiodCall
  | 0 => []
  | k + 1 =>
    GpiodCall.set_value r tck 0 :: GpiodCall.set_value r tck 1 :: GpiodCall.set_value r tck 0 ::
      tckBurst r tck k

/-- The levels the clock line is driven to in `n` pulses: low, high, low, `n` times. -/
def pulseTrain : Nat → List Int
  | 0 => []
  | k + 1 => 0 :: 1 :: 0 :: pulseTrain k

/-- The write `gpio_set_signal` issues for one selector, if the mask has it. -/
def signalCall (p : gpio_params_t) (mask val sel pin : Nat) : List GpiodCall :=
  if mask &&& sel ≠ 0 then [GpiodCall.set_value p.request pin ((val &&& sel : Nat) : Int)] else []

/-- The writes of `gpio_set_signal`, in order: TMS, TDI, TCK. -/
def signalCalls (S : PodBits) (p : gpio_params_t) (mask val : Nat) : List GpiodCall :=
  signalCall p (mask &&& triad S) val (URJ_POD_CS_TMS S) (p.jtag_gpios.get GPIO_TMS) ++
  signalCall p (mask &&& triad S) val (URJ_POD_CS_TDI S) (p.jtag_gpios.get GPIO_TDI) ++
  signalCall p (mask &&& triad S) val (URJ_POD_CS_TCK S) (p.jtag_gpios.get GPIO_TCK)

/-- The three output lines of a pin map are three different lines. -/
def Gpios.distinct (g : Gpios) : Prop :=
  g.get GPIO_TDI ≠ g.get GPIO_TCK ∧ g.get GPIO_TDI ≠ g.get GPIO_TMS ∧
  g.get GPIO_TCK ≠ g.get GPIO_TMS

instance (g : Gpios) : Decidable g.distinct := by
  unfold Gpios.distinct; infer_instance

/-- The provider answers the request of `gpio_open` without a hard failure:
either there is no chip, or every object is built and the request is granted. -/
def Gpiod.cooperative (hw : Gpiod) : Prop :=
  hw.chip = false ∨
  (hw.line_cfg = true ∧ (∀ i, i < GPIO_REQUIRED → hw.settings i = true ∧ hw.add_line i = true) ∧
    hw.rconfig = true ∧ hw.grant.isSome = true)

instance (hw : Gpiod) : Decidable hw.cooperative := by
  unfold Gpiod.cooperative; infer_instance

/-- A key occurs in a parameter list (`none` is the `NULL` list). -/
def occurs (k : urj_cable_param_key) (params : Option (List urj_param_t)) : Prop :=
  ∃ q, q ∈ params.getD [] ∧ q.key = k

/-- The array index a parameter key is stored at, if the driver stores it. -/
def keyIndex : urj_cable_param_key → Option Nat
  | URJ_CABLE_PARAM_KEY_TDI => some GPIO_TDI
  | URJ_CABLE_PARAM_KEY_TDO => some GPIO_TDO
  | URJ_CABLE_PARAM_KEY_TMS => some GPIO_TMS
  | URJ_CABLE_PARAM_KEY_TCK => some GPIO_TCK
  | other _ => none

/-- The parameter list `tdi=.. tck=.. tms=.. tdo=..`. -/
def pins (tdi tck tms tdo : Nat) : List urj_param_t :=
  [⟨URJ_CABLE_PARAM_KEY_TDI, tdi⟩, ⟨URJ_CABLE_PARAM_KEY_TCK, tck⟩,
   ⟨URJ_CABLE_PARAM_KEY_TMS, tms⟩, ⟨URJ_CABLE_PARAM_KEY_TDO, tdo⟩]

/-- An operation of the steady state. -/
inductive Op where
  | clock (tms tdi n : Int)
  | get_tdo
  | set_signal (mask val : Nat)
deriving DecidableEq

/-- One operation on the pair of cable and provider. -/
def step (S : PodBits) (st : urj_cable_t × Gpiod) : Op → Option (urj_cable_t × Gpiod)
  | Op.clock tms tdi n =>
    match gpio_clock st.2 st.1 tms tdi n with
    | none => none
    | some hw => some (st.1, hw)
  | Op.get_tdo =>
    match gpio_get_tdo S st.2 st.1 with
    | none => none
    | some r => some r.2
  | Op.set_signal mask val =>
    match gpio_set_signal S st.2 st.1 mask val with
    | none => none
    | some r => some r.2

/-- A finite sequence of operations. -/
def run (S : PodBits) : urj_cable_t × Gpiod → List Op → Option (urj_cable_t × Gpiod)
  | st, [] => some st
  | st, o :: os =>
    match step S st o with
    | none => none
    | some st1 => run S st1 os

/-- A successful `connect` followed by a successful `init`; `none` when either
of them fails. -/
def bringUp (S : PodBits) (hw : Gpiod) (cable : urj_cable_t)
    (params : Option (List urj_param_t)) : Option (urj_cable_t × Gpiod) :=
  let r := gpio_connect true cable params
  if r.status = URJ_STATUS_OK then
    match r.cable with
    | none => none
    | some c1 =>
      match gpio_init S hw c1 with
      | none => none
      | some (st, c2, hw2) => if st = URJ_STATUS_OK then some (c2, hw2) else none
  else none

/-- The state reached by a successful `connect` and `init` and then a
sequence of operations. -/
def reach (S : PodBits) (hw : Gpiod) (cable : urj_cable_t)
    (params : Option (List urj_param_t)) (ops : List Op) : Option (urj_cable_t × Gpiod) :=
  match bringUp S hw cable params with
  | none => none
  | some st => run S st ops

/-- The tracked output mask mirrors the lines: for each of TDI, TCK and TMS
the bit is set in `lastout` exactly when the line is at a non-zero level. -/
def Tracked (S : PodBits) (st : urj_cable_t × Gpiod) : Prop :=
  match st.1.params with
  | none => False
  | some p =>
    ((p.lastout &&& URJ_POD_CS_TDI S ≠ 0) ↔ st.2.level (p.jtag_gpios.get GPIO_TDI) ≠ 0) ∧
    ((p.lastout &&& URJ_POD_CS_TCK S ≠ 0) ↔ st.2.level (p.jtag_gpios.get GPIO_TCK) ≠ 0) ∧
    ((p.lastout &&& URJ_POD_CS_TMS S ≠ 0) ↔ st.2.level (p.jtag_gpios.get GPIO_TMS) ≠ 0)

instance (S : PodBits) (st : urj_cable_t × Gpiod) : Decidable (Tracked S st) := by
  unfold Tracked
  cases st.1.params <;> infer_instance

/-- A provider that has a chip, grants the request under handle 1, accepts
every write, reads every line as 0 and starts with every line low. -/
def board : Gpiod :=
  ⟨true, true, fun _ => true, fun _ => true, true, some 1, fun _ _ => true,
    fun _ => 0, fun _ => 0, []⟩

/-- A cable the framework has allocated and not yet connected. -/
def blank : urj_cable_t := ⟨none, none, 0⟩

/-- The parameter block of a cable connected with `tdi=17 tck=22 tms=27 tdo=18`
and initialised on `board` with the `urjtag` selectors. -/
def readyParams : gpio_params_t := ⟨⟨17, 22, 27, 18⟩, 8, 0, some 1⟩

/-- The cable that holds `readyParams`. -/
def ready : urj_cable_t := ⟨some readyParams, none, 1000⟩

/-- The provider `board` after the `init` of `ready`: the chip was opened and
the four lines were requested. -/
def wired : Gpiod :=
  { board with
    calls :=
      [GpiodCall.chip_open,
       GpiodCall.request_lines
        [(17, ⟨gpiod_line_direction.GPIOD_LINE_DIRECTION_OUTPUT, 0⟩),
         (22, ⟨gpiod_line_direction.GPIOD_LINE_DIRECTION_OUTPUT, 0⟩),
         (27, ⟨gpiod_line_direction.GPIOD_LINE_DIRECTION_OUTPUT, 0⟩),
         (18, ⟨gpiod_line_direction.GPIOD_LINE_DIRECTION_INPUT, 0⟩)]] }

/-! ## Bit-level facts -/

theorem and_two_pow_ne_zero (x k : Nat) : x &&& 2 ^ k ≠ 0 ↔ x.testBit k = true := by
  constructor
  · intro h
    obtain ⟨i, hi⟩ := Nat.ne_zero_implies_bit_true h
    rw [Nat.testBit_and, Nat.testBit_two_pow] at hi
    simp only [Bool.and_eq_true, decide_eq_true_eq] at hi
    obtain ⟨h1, h2⟩ := hi
    subst h2; exact h1
  · intro h h0
    have h1 : (x &&& 2 ^ k).testBit k = true := by
      rw [Nat.testBit_and, h, Nat.testBit_two_pow_self]; rfl
    rw [h0] at h1; simp at h1

theorem testBit_cnot (x i : Nat) : (cnot x).testBit i = (decide (i < 32) != x.testBit i) := by
  unfold cnot
  rw [Nat.testBit_xor, Nat.testBit_two_pow_sub_one]

theorem testBit_triad (S : PodBits) (i : Nat) :
    (triad S).testBit i = (decide (S.tdi = i) || decide (S.tck = i) || decide (S.tms = i)) := by
  simp only [triad, URJ_POD_CS_TDI, URJ_POD_CS_TCK, URJ_POD_CS_TMS, Nat.testBit_or,
    Nat.testBit_two_pow]

theorem or_sel (X l k : Nat) :
    (if l &&& 2 ^ k ≠ 0 then X ||| 2 ^ k else X) = X ||| (l &&& 2 ^ k) := by
  by_cases h : l &&& 2 ^ k ≠ 0
  · rw [if_pos h]
    have h1 := (and_two_pow_ne_zero l k).1 h
    congr 1
    apply Nat.eq_of_testBit_eq
    intro i
    rw [Nat.testBit_and, Nat.testBit_two_pow]
    by_cases hi : k = i
    · subst hi; simp [h1]
    · simp [hi]
  · rw [if_neg h]
    have h0 : l &&& 2 ^ k = 0 := by simpa using h
    rw [h0]; simp

theorem current_signals_some (S : PodBits) (c : urj_cable_t) (p : gpio_params_t)
    (hp : c.params = some p) :
    gpio_current_signals S c = some (combined S p.signals p.lastout) := by
  unfold gpio_current_signals
  rw [hp]
  simp only [URJ_POD_CS_TDI, URJ_POD_CS_TCK, URJ_POD_CS_TMS, or_sel, combined, triad]
  congr 1
  apply Nat.eq_of_testBit_eq
  intro i
  simp only [Nat.testBit_or, Nat.testBit_and, testBit_cnot, Nat.testBit_two_pow]
  cases p.signals.testBit i <;> cases p.lastout.testBit i <;> cases decide (i < 32) <;>
    cases decide (S.tdi = i) <;> cases decide (S.tck = i) <;> cases decide (S.tms = i) <;> rfl

/-! ## The log and the levels -/

theorem log_eq_logs (hw : Gpiod) (c : GpiodCall) : hw.log c = hw.logs [c] := rfl

theorem logs_logs (hw : Gpiod) (a b : List GpiodCall) : (hw.logs a).logs b = hw.logs (a ++ b) := by
  simp [Gpiod.logs, List.append_assoc]

theorem logs_nil (hw : Gpiod) : hw.logs [] = hw := by
  simp [Gpiod.logs]

@[simp] theorem logs_accepts (hw : Gpiod) (cs : List GpiodCall) :
    (hw.logs cs).accepts = hw.accepts := rfl

@[simp] theorem logs_sample (hw : Gpiod) (cs : List GpiodCall) :
    (hw.logs cs).sample = hw.sample := rfl

@[simp] theorem logs_calls (hw : Gpiod) (cs : List GpiodCall) :
    (hw.logs cs).calls = hw.calls ++ cs := rfl

theorem logs_apply (hw : Gpiod) (cs : List GpiodCall) : (hw.logs cs).apply = hw.apply := by
  funext lv c
  cases c <;> rfl

theorem logs_wave (hw : Gpiod) (cs : List GpiodCall) (line : Nat) (lv : Nat → Int)
    (ds : List GpiodCall) : (hw.logs cs).wave line lv ds = hw.wave line lv ds := by
  induction ds generalizing lv with
  | nil => rfl
  | cons d ds ih => simp only [Gpiod.wave, logs_apply, ih]

theorem logs_level (hw : Gpiod) (cs : List GpiodCall) (l : Nat) :
    (hw.logs cs).level l = hw.levelsFrom hw.level cs l := by
  unfold Gpiod.level Gpiod.levelsFrom
  rw [logs_apply]
  simp [Gpiod.logs, List.foldl_append]

/-! ## The operations in closed form -/

theorem set_value_some (hw : Gpiod) (c : urj_cable_t) (p : gpio_params_t) (pin : Nat)
    (v : Int) (hp : c.params = some p) :
    gpio_set_value hw c pin v =
      some (if hw.accepts p.request pin then URJ_STATUS_OK else URJ_STATUS_FAIL,
        hw.logs [GpiodCall.set_value p.request pin v]) := by
  unfold gpio_set_value
  rw [hp]
  by_cases h : hw.accepts p.request pin = true <;> simp [h, log_eq_logs]

theorem clock_loop_some (c : urj_cable_t) (p : gpio_params_t) (tck : Nat)
    (hp : c.params = some p) (k : Nat) (hw : Gpiod) :
    gpio_clock_loop c tck k hw = some (hw.logs (tckBurst p.request tck k)) := by
  induction k generalizing hw with
  | zero => simp [gpio_clock_loop, tckBurst, logs_nil]
  | succ k ih =>
    simp only [gpio_clock_loop, set_value_some _ c p _ _ hp, ih, logs_logs, tckBurst]
    rfl

theorem clock_some (hw : Gpiod) (c : urj_cable_t) (p : gpio_params_t) (tms tdi n : Int)
    (hp : c.params = some p) :
    gpio_clock hw c tms tdi n =
      some (hw.logs (GpiodCall.set_value p.request (p.jtag_gpios.get GPIO_TMS) (if tms ≠ 0 then 1 else 0) ::
        GpiodCall.set_value p.request (p.jtag_gpios.get GPIO_TDI) (if tdi ≠ 0 then 1 else 0) ::
        tckBurst p.request (p.jtag_gpios.get GPIO_TCK) n.toNat)) := by
  unfold gpio_clock
  rw [hp]
  simp only [set_value_some _ c p _ _ hp, clock_loop_some c p _ hp, logs_logs]
  rfl

theorem get_tdo_some (S : PodBits) (hw : Gpiod) (c : urj_cable_t) (p : gpio_params_t)
    (hp : c.params = some p) :
    gpio_get_tdo S hw c =
      some (hw.sample (p.jtag_gpios.get GPIO_TDO),
        { c with
          params := some
            { p with
              lastout :=
                p.lastout &&& cnot (URJ_POD_CS_TMS S ||| URJ_POD_CS_TDI S ||| URJ_POD_CS_TCK S) } },
        hw.logs [GpiodCall.set_value p.request (p.jtag_gpios.get GPIO_TCK) 0,
          GpiodCall.set_value p.request (p.jtag_gpios.get GPIO_TDI) 0,
          GpiodCall.set_value p.request (p.jtag_gpios.get GPIO_TMS) 0,
          GpiodCall.cable_wait c.delay,
          GpiodCall.get_value p.request (p.jtag_gpios.get GPIO_TDO)]) := by
  unfold gpio_get_tdo
  rw [hp]
  simp only [set_value_some _ c p _ _ hp, gpio_get_value, log_eq_logs, logs_logs, logs_sample]
  rfl

theorem set_signal_line_some (hw : Gpiod) (c : urj_cable_t) (p : gpio_params_t)
    (mask val sel pin : Nat) (hp : c.params = some p) :
    gpio_set_signal_line hw c mask val sel pin = some (hw.logs (signalCall p mask val sel pin)) := by
  unfold gpio_set_signal_line signalCall
  by_cases h : mask &&& sel ≠ 0
  · simp only [if_pos h, set_value_some _ c p _ _ hp]
  · simp only [if_neg h, logs_nil]

theorem signalCall_zero (p : gpio_params_t) (val sel pin : Nat) :
    signalCall p 0 val sel pin = [] := by
  simp [signalCall]

theorem set_signal_some (S : PodBits) (hw : Gpiod) (c : urj_cable_t) (p : gpio_params_t)
    (mask val : Nat) (hp : c.params = some p) :
    gpio_set_signal S hw c mask val =
      some (combined S p.signals p.lastout,
        { c with params := some { p with lastout := val &&& (mask &&& triad S) } },
        hw.logs (signalCalls S p mask val)) := by
  unfold gpio_set_signal
  rw [current_signals_some S c p hp, hp]
  simp only [set_signal_line_some _ c p _ _ _ _ hp, logs_logs]
  show (match (if mask &&& triad S ≠ 0 then _ else some hw) with
    | none => none
    | some hw3 => _) = _
  by_cases h : mask &&& triad S = 0
  · simp only [h, ne_eq, not_true_eq_false, if_false, signalCalls, signalCall_zero,
      List.append_nil, logs_nil]
    have h1 : mask &&& (URJ_POD_CS_TDI S ||| URJ_POD_CS_TCK S ||| URJ_POD_CS_TMS S) = 0 := h
    rw [h1]
  · simp only [ne_eq, h, not_false_eq_true, if_true, signalCalls, List.append_assoc]
    rfl

theorem combined_testBit (S : PodBits) (hS : S.wf) (signals lastout i : Nat) :
    (combined S signals lastout).testBit i =
      if (triad S).testBit i = true then lastout.testBit i
      else (signals.testBit i && decide (i < 32)) := by
  obtain ⟨h1, h2, h3, -⟩ := hS
  simp only [combined, Nat.testBit_or, Nat.testBit_and, testBit_cnot]
  by_cases ht : (triad S).testBit i = true
  · have hi : i < 32 := by
      rw [testBit_triad] at ht
      simp only [Bool.or_eq_true, decide_eq_true_eq] at ht
      omega
    simp [ht, hi]
  · simp only [Bool.not_eq_true] at ht
    simp [ht]

theorem levels_set (hw : Gpiod) (lv : Nat → Int) (r : Option Nat) (off : Nat) (v : Int)
    (hacc : ∀ r l, hw.accepts r l = true) :
    hw.apply lv (GpiodCall.set_value r off v) = fun l => if l = off then v else lv l := by
  simp [Gpiod.apply, hacc]

/-- Claim C2: for every cable state and every state of the lines, `get_tdo`
issues exactly the calls set TCK to 0, set TDI to 0, set TMS to 0, the pacing
wait and one read of the TDO line, in this order; it returns what that read
yields; afterwards the TDI, TCK and TMS bits of the tracked output mask are
clear and the static signals are unchanged; and, the provider accepting the
writes, the TCK, TDI and TMS lines are at level 0. -/
theorem get_tdo_forces_low (S : PodBits) (hw : Gpiod) (c : urj_cable_t) (p : gpio_params_t)
    (hS : S.wf) (hp : c.params = some p) :
    ∃ c1 hw1 p1, gpio_get_tdo S hw c = some (hw.sample (p.jtag_gpios.get GPIO_TDO), c1, hw1) ∧
      hw1.calls = hw.calls ++
        [GpiodCall.set_value p.request (p.jtag_gpios.get GPIO_TCK) 0,
         GpiodCall.set_value p.request (p.jtag_gpios.get GPIO_TDI) 0,
         GpiodCall.set_value p.request (p.jtag_gpios.get GPIO_TMS) 0,
         GpiodCall.cable_wait c.delay,
         GpiodCall.get_value p.request (p.jtag_gpios.get GPIO_TDO)] ∧
      c1.params = some p1 ∧
      p1.lastout &&& URJ_POD_CS_TDI S = 0 ∧ p1.lastout &&& URJ_POD_CS_TCK S = 0 ∧
      p1.lastout &&& URJ_POD_CS_TMS S = 0 ∧
      p1.signals = p.signals ∧ p1.jtag_gpios = p.jtag_gpios ∧ p1.request = p.request ∧
      ((∀ r l, hw.accepts r l = true) →
        hw1.level (p.jtag_gpios.get GPIO_TCK) = 0 ∧ hw1.level (p.jtag_gpios.get GPIO_TDI) = 0 ∧
        hw1.level (p.jtag_gpios.get GPIO_TMS) = 0) := by
  have hclear : ∀ k, k < 31 → (triad S).testBit k = true →
      (p.lastout &&& cnot (URJ_POD_CS_TMS S ||| URJ_POD_CS_TDI S ||| URJ_POD_CS_TCK S))
        &&& 2 ^ k = 0 := by
    intro k hk ht
    by_contra hne
    have h1 := (and_two_pow_ne_zero _ k).1 hne
    rw [testBit_triad] at ht
    simp only [Nat.testBit_and, testBit_cnot, Nat.testBit_or, URJ_POD_CS_TMS, URJ_POD_CS_TDI,
      URJ_POD_CS_TCK, Nat.testBit_two_pow] at h1
    have hk32 : k < 32 := by omega
    simp only [Bool.or_eq_true, decide_eq_true_eq] at ht
    rcases ht with (ht | ht) | ht <;> simp [ht, hk32] at h1
  obtain ⟨h1, h2, h3, -⟩ := hS
  refine ⟨_, _, _, get_tdo_some S hw c p hp, rfl, rfl, ?_, ?_, ?_, rfl, rfl, rfl, ?_⟩
  · exact hclear S.tdi h1 (by simp [testBit_triad])
  · exact hclear S.tck h2 (by simp [testBit_triad])
  · exact hclear S.tms h3 (by simp [testBit_triad])
  · intro hacc
    simp only [logs_level, Gpiod.levelsFrom, List.foldl_cons, List.foldl_nil, levels_set _ _ _ _ _ hacc]
    simp [Gpiod.apply]

theorem combined_outside (S : PodBits) (signals lastout i : Nat)
    (hi : (triad S).testBit i = false) :
    (combined S signals lastout).testBit i = (signals.testBit i && decide (i < 32)) := by
  simp only [combined, Nat.testBit_or, Nat.testBit_and, testBit_cnot, hi]
  cases signals.testBit i <;> cases decide (i < 32) <;> simp

/-- Claim C6: after `set_signal(mask, value)` the tracked output mask is
`value & mask & (TDI|TCK|TMS)`, whatever it was before (a TDI/TCK/TMS bit that
is not in `mask` is clear afterwards), the static signals are unchanged, and
`current_signals()` is the static signals with the TDI/TCK/TMS bits cleared,
or-ed with `value & mask & (TDI|TCK|TMS)`. -/
theorem set_signal_replaces_mask (S : PodBits) (hw : Gpiod) (c : urj_cable_t)
    (p : gpio_params_t) (mask val : Nat) (hp : c.params = some p) :
    ∃ prev c1 hw1 p1, gpio_set_signal S hw c mask val = some (prev, c1, hw1) ∧
      c1.params = some p1 ∧
      p1.lastout = val &&& mask &&& triad S ∧
      (∀ i, (triad S).testBit i = true → mask.testBit i = false → p1.lastout.testBit i = false) ∧
      p1.signals = p.signals ∧
      gpio_current_signals S c1 =
        some ((p.signals &&& cnot (triad S)) ||| (val &&& mask &&& triad S)) := by
  refine ⟨_, _, _, _, set_signal_some S hw c p mask val hp, rfl, ?_, ?_, rfl, ?_⟩
  · exact (Nat.and_assoc _ _ _).symm
  · intro i _ hm
    simp [Nat.testBit_and, hm]
  · rw [current_signals_some S _ _ rfl]
    simp only [combined]
    congr 2
    apply Nat.eq_of_testBit_eq
    intro i
    simp only [Nat.testBit_and]
    cases val.testBit i <;> cases mask.testBit i <;> cases (triad S).testBit i <;> rfl

/-- Claim C3, amended: `set_signal(mask, value)` returns exactly what
`current_signals()` returned immediately before the call; that value and
`current_signals()` immediately after the call differ only in bits of
TDI|TCK|TMS (no bit outside the three changes); afterwards each of the three
bits that is in `mask` is the bit of `value`, and each of the three that is
not in `mask` is clear. -/
theorem set_signal_returns_previous (S : PodBits) (hw : Gpiod) (c : urj_cable_t)
    (p : gpio_params_t) (mask val : Nat) (hS : S.wf) (hp : c.params = some p) :
    ∃ pre c1 hw1 post, gpio_current_signals S c = some pre ∧
      gpio_set_signal S hw c mask val = some (pre, c1, hw1) ∧
      gpio_current_signals S c1 = some post ∧
      (∀ i, pre.testBit i ≠ post.testBit i → (triad S).testBit i = true) ∧
      (∀ i, (triad S).testBit i = true → mask.testBit i = true →
        post.testBit i = val.testBit i) ∧
      (∀ i, (triad S).testBit i = true → mask.testBit i = false → post.testBit i = false) := by
  refine ⟨_, _, _, _, current_signals_some S c p hp, set_signal_some S hw c p mask val hp,
    current_signals_some S _ _ rfl, ?_, ?_, ?_⟩
  · intro i hne
    by_contra ht
    simp only [Bool.not_eq_true] at ht
    exact hne (by rw [combined_outside S _ _ i ht, combined_outside S _ _ i ht])
  · intro i ht hm
    rw [combined_testBit S hS, if_pos ht]
    simp [Nat.testBit_and, hm, ht]
  · intro i ht hm
    rw [combined_testBit S hS, if_pos ht]
    simp [Nat.testBit_and, hm]

/-- Claim C4, amended: for a mask with a bit `b` outside TDI, TCK and TMS,
`set_signal(mask, value)` does exactly what the call with the mask restricted
to TDI|TCK|TMS does (the same line writes, the same result), and bit `b` of
the `current_signals()` that follows is what it was before the call, namely
bit `b` of the static signals: the call neither sets nor clears it. -/
theorem set_signal_drops_foreign_bit (S : PodBits) (hw : Gpiod) (c : urj_cable_t)
    (p : gpio_params_t) (mask val b : Nat) (hp : c.params = some p)
    (hb : mask.testBit b = true) (hout : (triad S).testBit b = false) :
    gpio_set_signal S hw c mask val = gpio_set_signal S hw c (mask &&& triad S) val ∧
    mask &&& triad S ≠ mask ∧
    ∃ pre c1 hw1 post, gpio_set_signal S hw c mask val = some (pre, c1, hw1) ∧
      hw1.calls = hw.calls ++ signalCalls S p (mask &&& triad S) val ∧
      gpio_current_signals S c1 = some post ∧
      post.testBit b = pre.testBit b ∧
      post.testBit b = (p.signals.testBit b && decide (b < 32)) := by
  have hidem : mask &&& triad S &&& triad S = mask &&& triad S := by
    rw [Nat.and_assoc, Nat.and_self]
  have hcalls : signalCalls S p (mask &&& triad S) val = signalCalls S p mask val := by
    simp only [signalCalls, hidem]
  refine ⟨?_, ?_, _, _, _, _, set_signal_some S hw c p mask val hp, ?_,
    current_signals_some S _ _ rfl, ?_, ?_⟩
  · rw [set_signal_some S hw c p mask val hp, set_signal_some S hw c p _ val hp, hidem, hcalls]
  · intro heq
    have h1 : (mask &&& triad S).testBit b = true := by rw [heq]; exact hb
    simp [Nat.testBit_and, hout] at h1
  · rw [hcalls]; rfl
  · rw [combined_outside S _ _ b hout, combined_outside S _ _ b hout]
  · rw [combined_outside S _ _ b hout]

/-! ## Configuration -/

theorem get_set_ne (g : Gpios) (i j v : Nat) (hi : i ≤ 3) (hj : j ≤ 3) (hne : i ≠ j) :
    (g.set j v).get i = g.get i := by
  unfold Gpios.set Gpios.get
  interval_cases i <;> interval_cases j <;> simp_all

theorem connect_params_request (ps : List urj_param_t) (cp : gpio_params_t) :
    (gpio_connect_params cp ps).request = cp.request := by
  induction ps generalizing cp with
  | nil => rfl
  | cons q rest ih =>
    unfold gpio_connect_params
    cases hk : q.key <;> simp only [ih]

theorem connect_params_keeps (ps : List urj_param_t) (cp : gpio_params_t) (i : Nat)
    (hi : i ≤ 3) (h : ∀ q, q ∈ ps → keyIndex q.key ≠ some i) :
    (gpio_connect_params cp ps).jtag_gpios.get i = cp.jtag_gpios.get i := by
  induction ps generalizing cp with
  | nil => rfl
  | cons q rest ih =>
    have hq := h q (List.mem_cons_self _ _)
    have hrest : ∀ q, q ∈ rest → keyIndex q.key ≠ some i :=
      fun q hq => h q (List.mem_cons_of_mem _ hq)
    unfold gpio_connect_params
    cases hk : q.key <;> rw [hk] at hq <;> simp only [ih _ hrest] <;>
      simp only [keyIndex, ne_eq, Option.some.injEq] at hq
    · exact get_set_ne _ _ _ _ hi (by decide) (fun e => hq e.symm)
    · exact get_set_ne _ _ _ _ hi (by decide) (fun e => hq e.symm)
    · exact get_set_ne _ _ _ _ hi (by decide) (fun e => hq e.symm)
    · exact get_set_ne _ _ _ _ hi (by decide) (fun e => hq e.symm)

theorem keyIndex_inj (a b : urj_cable_param_key) (i : Nat) (ha : keyIndex a = some i)
    (hb : keyIndex b = some i) : a = b := by
  cases a <;> cases b <;>
    simp only [keyIndex, GPIO_TDI, GPIO_TDO, GPIO_TMS, GPIO_TCK, Option.some.injEq,
      reduceCtorEq] at ha hb <;>
    first | rfl | omega

theorem connect_unset (c : urj_cable_t) (params : Option (List urj_param_t)) (k : urj_cable_param_key)
    (i : Nat) (hk : keyIndex k = some i) (hi : i ≤ 3) (hno : ¬ occurs k params) :
    gpio_connect true c params =
      ⟨URJ_STATUS_FAIL, some URJ_ERROR_SYNTAX, true, some c, (gpio_connect true c params).block⟩ ∧
    ∀ b, (gpio_connect true c params).block = some b → b.request = none := by
  have hkey : ∀ q, q ∈ params.getD [] → keyIndex q.key ≠ some i := by
    intro q hq he
    apply hno
    refine ⟨q, hq, ?_⟩
    exact keyIndex_inj _ _ i he hk
  have hget : ∀ cp : gpio_params_t,
      (match params with
        | none => cp
        | some ps => gpio_connect_params cp ps).jtag_gpios.get i = cp.jtag_gpios.get i ∧
      (match params with
        | none => cp
        | some ps => gpio_connect_params cp ps).request = cp.request := by
    intro cp
    cases params with
    | none => exact ⟨rfl, rfl⟩
    | some ps => exact ⟨connect_params_keeps ps cp i hi hkey, connect_params_request ps cp⟩
  have hany : ∀ g : Gpios, g.get i = GPIO_UNSET →
      (List.range GPIO_REQUIRED).any (fun j => g.get j == GPIO_UNSET) = true := by
    intro g hg
    rw [List.any_eq_true]
    exact ⟨i, List.mem_range.2 (by unfold GPIO_REQUIRED; omega), by simp [hg]⟩
  have hinit : ((((calloc_params.jtag_gpios.set GPIO_TDI GPIO_UNSET).set GPIO_TDO GPIO_UNSET).set
      GPIO_TMS GPIO_UNSET).set GPIO_TCK GPIO_UNSET).get i = GPIO_UNSET := by
    interval_cases i <;> rfl
  unfold gpio_connect
  simp only [Bool.not_true, Bool.false_eq_true, if_false]
  rw [if_pos (hany _ (by rw [(hget _).1]; exact hinit))]
  refine ⟨rfl, ?_⟩
  intro b hb
  simp only [Option.some.injEq] at hb
  rw [← hb, (hget _).2]
  rfl

/-- Claim C5: for every parameter list, the absent list and lists with
unrecognised keys included, in which at least one of the keys tdi, tdo, tms,
tck does not occur, `connect` returns failure, installs neither a parameter
block nor a pacing delay on the cable (the cable it leaves is the cable it
got), and the block it allocated holds no line request; the error it sets is
the syntax error, with the usage text, whenever `calloc` gave it a block. -/
theorem connect_requires_all_keys (mem : Bool) (c : urj_cable_t)
    (params : Option (List urj_param_t))
    (h : ¬ occurs URJ_CABLE_PARAM_KEY_TDI params ∨ ¬ occurs URJ_CABLE_PARAM_KEY_TDO params ∨
      ¬ occurs URJ_CABLE_PARAM_KEY_TMS params ∨ ¬ occurs URJ_CABLE_PARAM_KEY_TCK params) :
    (gpio_connect mem c params).status = URJ_STATUS_FAIL ∧
    (∀ c1, (gpio_connect mem c params).cable = some c1 → c1 = c) ∧
    (∀ b, (gpio_connect mem c params).block = some b → b.request = none) ∧
    (mem = true →
      (gpio_connect mem c params).error = some URJ_ERROR_SYNTAX ∧
      (gpio_connect mem c params).help = true ∧
      (gpio_connect mem c params).cable = some c) := by
  cases mem with
  | false =>
    refine ⟨rfl, ?_, ?_, ?_⟩
    · intro c1 h1; exact absurd h1 (by simp [gpio_connect])
    · intro b h1; exact absurd h1 (by simp [gpio_connect])
    · intro h1; exact absurd h1 (by decide)
  | true =>
    have key : gpio_connect true c params =
          ⟨URJ_STATUS_FAIL, some URJ_ERROR_SYNTAX, true, some c,
            (gpio_connect true c params).block⟩ ∧
        ∀ b, (gpio_connect true c params).block = some b → b.request = none := by
      rcases h with h | h | h | h
      · exact connect_unset c params URJ_CABLE_PARAM_KEY_TDI GPIO_TDI rfl (by decide) h
      · exact connect_unset c params URJ_CABLE_PARAM_KEY_TDO GPIO_TDO rfl (by decide) h
      · exact connect_unset c params URJ_CABLE_PARAM_KEY_TMS GPIO_TMS rfl (by decide) h
      · exact connect_unset c params URJ_CABLE_PARAM_KEY_TCK GPIO_TCK rfl (by decide) h
    obtain ⟨k1, k2⟩ := key
    refine ⟨by rw [k1], ?_, k2, fun _ => ⟨by rw [k1], by rw [k1], by rw [k1]⟩⟩
    intro c1 h1
    rw [k1] at h1
    simp only [Option.some.injEq] at h1
    exact h1.symm

/-- The witness of C5: the list `tck=5` alone lacks `tdi`. -/
theorem connect_requires_all_keys_witness :
    (gpio_connect true blank (some [⟨URJ_CABLE_PARAM_KEY_TCK, 5⟩])).status = URJ_STATUS_FAIL ∧
    (gpio_connect true blank (some [⟨URJ_CABLE_PARAM_KEY_TCK, 5⟩])).error = some URJ_ERROR_SYNTAX :=
  have h := connect_requires_all_keys true blank (some [⟨URJ_CABLE_PARAM_KEY_TCK, 5⟩])
    (Or.inl (by simp [occurs]))
  ⟨h.1, (h.2.2.2 rfl).1⟩

/-! ## Bring-up -/

theorem connect_pins (c : urj_cable_t) (tdi tck tms tdo : Nat)
    (h1 : tdi % 2 ^ 32 ≠ GPIO_UNSET) (h2 : tck % 2 ^ 32 ≠ GPIO_UNSET)
    (h3 : tms % 2 ^ 32 ≠ GPIO_UNSET) (h4 : tdo % 2 ^ 32 ≠ GPIO_UNSET) :
    gpio_connect true c (some (pins tdi tck tms tdo)) =
      ⟨URJ_STATUS_OK, none, false,
        some { c with
          params := some ⟨⟨tdi % 2 ^ 32, tck % 2 ^ 32, tms % 2 ^ 32, tdo % 2 ^ 32⟩, 0, 0, none⟩
          chain := none
          delay := 1000 },
        some ⟨⟨tdi % 2 ^ 32, tck % 2 ^ 32, tms % 2 ^ 32, tdo % 2 ^ 32⟩, 0, 0, none⟩⟩ := by
  have hr : List.range GPIO_REQUIRED = [0, 1, 2, 3] := by decide
  have e : (2 : Nat) ^ 32 = 4294967296 := by norm_num
  rw [e] at h1 h2 h3 h4
  simp [gpio_connect, gpio_connect_params, pins, calloc_params, Gpios.set, Gpios.get, hr,
    GPIO_TDI, GPIO_TCK, GPIO_TMS, GPIO_TDO, h1, h2, h3, h4]

theorem open_lines_all (hw : Gpiod) (p : gpio_params_t)
    (h : ∀ i, i < GPIO_REQUIRED → hw.settings i = true ∧ hw.add_line i = true) :
    ∃ cfg, gpio_open_lines hw p GPIO_REQUIRED 0 [] = some cfg := by
  have h0 := h 0 (by decide)
  have h1 := h 1 (by decide)
  have h2 := h 2 (by decide)
  have h3 := h 3 (by decide)
  simp [gpio_open_lines, GPIO_REQUIRED, h0, h1, h2, h3]

theorem init_some (S : PodBits) (hw : Gpiod) (c : urj_cable_t) (p : gpio_params_t)
    (hp : c.params = some p) (hco : hw.cooperative) :
    ∃ req cs, gpio_init S hw c =
      some (URJ_STATUS_OK,
        { c with params := some { p with signals := URJ_POD_CS_TRST S, request := req } },
        hw.logs cs) := by
  rcases hco with hno | ⟨hcfg, hall, hrc, hgr⟩
  · refine ⟨p.request, [GpiodCall.chip_open], ?_⟩
    simp [gpio_init, gpio_open, hp, hno, log_eq_logs]
  · obtain ⟨cfg, hcfg1⟩ := open_lines_all hw p hall
    obtain ⟨r, hr⟩ := Option.isSome_iff_exists.1 hgr
    by_cases hchip : hw.chip = true
    · refine ⟨some r, [GpiodCall.chip_open, GpiodCall.request_lines cfg], ?_⟩
      simp [gpio_init, gpio_open, hp, hchip, hcfg, hcfg1, hrc, hr, log_eq_logs, logs_logs]
    · refine ⟨p.request, [GpiodCall.chip_open], ?_⟩
      simp [gpio_init, gpio_open, hp, hchip, log_eq_logs]

theorem and_two_pow_eq_zero (x k : Nat) : x &&& 2 ^ k = 0 ↔ x.testBit k = false := by
  rw [← Bool.not_eq_true, ← and_two_pow_ne_zero, not_not]

theorem get_signal_some (S : PodBits) (c : urj_cable_t) (p : gpio_params_t) (sig : Nat)
    (hp : c.params = some p) :
    gpio_get_signal S c sig =
      some (if combined S p.signals p.lastout &&& sig ≠ 0 then 1 else 0) := by
  unfold gpio_get_signal
  rw [current_signals_some S c p hp]

theorem triad_bits (S : PodBits) (hS : S.wf) :
    (triad S).testBit S.tdi = true ∧ (triad S).testBit S.tck = true ∧
    (triad S).testBit S.tms = true ∧ (triad S).testBit S.trst = false := by
  obtain ⟨-, -, -, -, -, -, -, h8, h9, h10⟩ := hS
  simp only [testBit_triad]
  refine ⟨by simp, by simp, by simp, ?_⟩
  simp [Ne.symm h8, Ne.symm h9, Ne.symm h10]

/-- Claim C7: for every fully specified pin map (four line numbers none of
which is stored as the unset sentinel) and a provider that does not refuse
the request, `connect` succeeds, `init` succeeds, `get_signal(TRST)` is 1 and
`get_signal` of TDI, TCK and TMS is 0; `set_signal(TMS|TDI, TMS)` then returns
a state with the TMS and TDI bits 0 and the TRST bit 1, and `current_signals()`
right after has the TMS bit set, the TDI bit clear and the TRST bit set. -/
theorem connect_init_set_signal (S : PodBits) (hw : Gpiod) (c0 : urj_cable_t)
    (tdi tck tms tdo : Nat) (hS : S.wf) (hco : hw.cooperative)
    (h1 : tdi % 2 ^ 32 ≠ GPIO_UNSET) (h2 : tck % 2 ^ 32 ≠ GPIO_UNSET)
    (h3 : tms % 2 ^ 32 ≠ GPIO_UNSET) (h4 : tdo % 2 ^ 32 ≠ GPIO_UNSET) :
    ∃ c1 c2 hw2 pre c3 hw3 now,
      (gpio_connect true c0 (some (pins tdi tck tms tdo))).status = URJ_STATUS_OK ∧
      (gpio_connect true c0 (some (pins tdi tck tms tdo))).cable = some c1 ∧
      c1.params = some ⟨⟨tdi % 2 ^ 32, tck % 2 ^ 32, tms % 2 ^ 32, tdo % 2 ^ 32⟩, 0, 0, none⟩ ∧
      gpio_init S hw c1 = some (URJ_STATUS_OK, c2, hw2) ∧
      gpio_get_signal S c2 (URJ_POD_CS_TRST S) = some 1 ∧
      gpio_get_signal S c2 (URJ_POD_CS_TDI S) = some 0 ∧
      gpio_get_signal S c2 (URJ_POD_CS_TCK S) = some 0 ∧
      gpio_get_signal S c2 (URJ_POD_CS_TMS S) = some 0 ∧
      gpio_set_signal S hw2 c2 (URJ_POD_CS_TMS S ||| URJ_POD_CS_TDI S) (URJ_POD_CS_TMS S) =
        some (pre, c3, hw3) ∧
      pre &&& URJ_POD_CS_TMS S = 0 ∧ pre &&& URJ_POD_CS_TDI S = 0 ∧
      pre &&& URJ_POD_CS_TRST S ≠ 0 ∧
      gpio_current_signals S c3 = some now ∧
      now &&& URJ_POD_CS_TMS S ≠ 0 ∧ now &&& URJ_POD_CS_TDI S = 0 ∧
      now &&& URJ_POD_CS_TRST S ≠ 0 := by
  obtain ⟨t1, t2, t3, t4⟩ := triad_bits S hS
  have hlt : S.trst < 32 := by have := hS.2.2.2.1; omega
  have hne : S.tms ≠ S.tdi := fun e => hS.2.2.2.2.2.1 e.symm
  obtain ⟨req, cs, hinit⟩ := init_some S hw
    { c0 with
      params := some ⟨⟨tdi % 2 ^ 32, tck % 2 ^ 32, tms % 2 ^ 32, tdo % 2 ^ 32⟩, 0, 0, none⟩
      chain := none
      delay := 1000 } _ rfl hco
  have hstatic : ∀ lo, (combined S (URJ_POD_CS_TRST S) lo).testBit S.trst = true := by
    intro lo
    rw [combined_testBit S hS, if_neg (by simp [t4])]
    simp [URJ_POD_CS_TRST, Nat.testBit_two_pow_self, hlt]
  have hdyn : ∀ lo k, (triad S).testBit k = true →
      (combined S (URJ_POD_CS_TRST S) lo).testBit k = lo.testBit k := by
    intro lo k hk
    rw [combined_testBit S hS, if_pos hk]
  refine ⟨_, _, _, _, _, _, _, by rw [connect_pins c0 _ _ _ _ h1 h2 h3 h4],
    by rw [connect_pins c0 _ _ _ _ h1 h2 h3 h4], rfl, hinit,
    ?_, ?_, ?_, ?_, set_signal_some S _ _ _ _ _ rfl, ?_, ?_, ?_,
    current_signals_some S _ _ rfl, ?_, ?_, ?_⟩
  · rw [get_signal_some S _ _ _ rfl, if_pos]
    exact (and_two_pow_ne_zero _ _).2 (hstatic _)
  · rw [get_signal_some S _ _ _ rfl, if_neg]
    rw [not_not]
    exact (and_two_pow_eq_zero _ _).2 (by rw [hdyn _ _ t1]; simp)
  · rw [get_signal_some S _ _ _ rfl, if_neg]
    rw [not_not]
    exact (and_two_pow_eq_zero _ _).2 (by rw [hdyn _ _ t2]; simp)
  · rw [get_signal_some S _ _ _ rfl, if_neg]
    rw [not_not]
    exact (and_two_pow_eq_zero _ _).2 (by rw [hdyn _ _ t3]; simp)
  · exact (and_two_pow_eq_zero _ _).2 (by rw [hdyn _ _ t3]; simp)
  · exact (and_two_pow_eq_zero _ _).2 (by rw [hdyn _ _ t1]; simp)
  · exact (and_two_pow_ne_zero _ _).2 (hstatic _)
  · refine (and_two_pow_ne_zero _ _).2 ?_
    rw [hdyn _ _ t3]
    simp [Nat.testBit_and, Nat.testBit_or, URJ_POD_CS_TMS, URJ_POD_CS_TDI,
      Nat.testBit_two_pow_self, t3]
  · refine (and_two_pow_eq_zero _ _).2 ?_
    rw [hdyn _ _ t1]
    simp [Nat.testBit_and, URJ_POD_CS_TMS, Nat.testBit_two_pow, hne]
  · exact (and_two_pow_ne_zero _ _).2 (hstatic _)

/-! ## Clock bursts -/

theorem wave_burst_clock (hw : Gpiod) (hacc : ∀ r l, hw.accepts r l = true) (r : Option Nat)
    (tck : Nat) (k : Nat) (lv : Nat → Int) :
    hw.wave tck lv (tckBurst r tck k) = pulseTrain k := by
  induction k generalizing lv with
  | zero => rfl
  | succ k ih =>
    simp only [tckBurst, Gpiod.wave, levels_set hw _ _ _ _ hacc, pulseTrain, ih, if_true]

theorem wave_burst_other (hw : Gpiod) (hacc : ∀ r l, hw.accepts r l = true) (r : Option Nat)
    (tck l : Nat) (hne : l ≠ tck) (k : Nat) (lv : Nat → Int) :
    ∀ x, x ∈ hw.wave l lv (tckBurst r tck k) → x = lv l := by
  induction k generalizing lv with
  | zero => intro x hx; simp [tckBurst, Gpiod.wave] at hx
  | succ k ih =>
    intro x hx
    simp only [tckBurst, Gpiod.wave, levels_set hw _ _ _ _ hacc, if_neg hne,
      List.mem_cons] at hx
    rcases hx with hx | hx | hx | hx
    · exact hx
    · exact hx
    · exact hx
    · rw [ih _ x hx]; simp [if_neg hne]

theorem levels_burst_other (hw : Gpiod) (hacc : ∀ r l, hw.accepts r l = true) (r : Option Nat)
    (tck l : Nat) (hne : l ≠ tck) (k : Nat) (lv : Nat → Int) :
    hw.levelsFrom lv (tckBurst r tck k) l = lv l := by
  induction k generalizing lv with
  | zero => rfl
  | succ k ih =>
    have h := ih (hw.apply (hw.apply (hw.apply lv (GpiodCall.set_value r tck 0))
      (GpiodCall.set_value r tck 1)) (GpiodCall.set_value r tck 0))
    simp only [Gpiod.levelsFrom] at h
    simp only [tckBurst, Gpiod.levelsFrom, List.foldl_cons, h]
    simp [levels_set hw _ _ _ _ hacc, if_neg hne]

theorem countPulses_train (k : Nat) (prev : Int) :
    countPulses false prev (pulseTrain k) = k := by
  induction k generalizing prev with
  | zero => rfl
  | succ k ih =>
    by_cases h : prev = 0
    · subst h
      simp [pulseTrain, countPulses, ih]
      omega
    · simp [pulseTrain, countPulses, ih, h]
      omega

theorem countPulses_flat (armed : Bool) (prev : Int) (xs : List Int) :
    countPulses armed prev (prev :: xs) = countPulses armed prev xs := by
  by_cases h : prev = 0 <;> simp [countPulses, h]

/-- Claim C1, amended: for every pin map whose TDI, TCK and TMS lines are three
different lines, every `tms`, every `tdi` and every `n ≥ 0`, with a provider
in which every write succeeds, `clock(tms, tdi, n)` in any state of a cable
that holds its parameter block (every state after a successful `connect` and
`init` is one) writes TMS, then TDI, then `n` times low, high, low on TCK:
the TCK line makes exactly `n` low→high→low pulses, and from the first TCK
write to the end of the burst the TMS line is at `tms != 0 ? 1 : 0` and the
TDI line at `tdi != 0 ? 1 : 0`. -/
theorem clock_pulses (hw : Gpiod) (c : urj_cable_t) (p : gpio_params_t) (tms tdi n : Int)
    (hp : c.params = some p) (hd : p.jtag_gpios.distinct)
    (hacc : ∀ r l, hw.accepts r l = true) (hn : 0 ≤ n) :
    ∃ hw1 burst, gpio_clock hw c tms tdi n = some hw1 ∧
      hw1.calls = hw.calls ++ burst ∧
      burst = GpiodCall.set_value p.request (p.jtag_gpios.get GPIO_TMS) (if tms ≠ 0 then 1 else 0) ::
        GpiodCall.set_value p.request (p.jtag_gpios.get GPIO_TDI) (if tdi ≠ 0 then 1 else 0) ::
        tckBurst p.request (p.jtag_gpios.get GPIO_TCK) n.toNat ∧
      (hw1.wave (p.jtag_gpios.get GPIO_TCK) hw.level burst).drop 2 = pulseTrain n.toNat ∧
      (countPulses false (hw.level (p.jtag_gpios.get GPIO_TCK))
        (hw1.wave (p.jtag_gpios.get GPIO_TCK) hw.level burst) : Int) = n ∧
      (∀ x, x ∈ (hw1.wave (p.jtag_gpios.get GPIO_TMS) hw.level burst).drop 2 →
        x = if tms ≠ 0 then 1 else 0) ∧
      (∀ x, x ∈ (hw1.wave (p.jtag_gpios.get GPIO_TDI) hw.level burst).drop 2 →
        x = if tdi ≠ 0 then 1 else 0) ∧
      hw1.level (p.jtag_gpios.get GPIO_TMS) = (if tms ≠ 0 then 1 else 0) ∧
      hw1.level (p.jtag_gpios.get GPIO_TDI) = (if tdi ≠ 0 then 1 else 0) := by
  obtain ⟨d1, d2, d3⟩ := hd
  refine ⟨_, _, clock_some hw c p tms tdi n hp, rfl, rfl, ?_, ?_, ?_, ?_, ?_, ?_⟩
  · simp only [logs_wave, logs_apply, Gpiod.wave, List.drop_succ_cons, List.drop_zero]
    exact wave_burst_clock hw hacc _ _ _ _
  · simp only [logs_wave, logs_apply, Gpiod.wave, levels_set hw _ _ _ _ hacc,
      wave_burst_clock hw hacc, if_neg d3, if_neg (Ne.symm d1), countPulses_flat,
      countPulses_train]
    exact Int.toNat_of_nonneg hn
  · intro x hx
    simp only [logs_wave, logs_apply, Gpiod.wave, List.drop_succ_cons, List.drop_zero] at hx
    rw [wave_burst_other hw hacc _ _ _ (Ne.symm d3) _ _ x hx]
    simp [levels_set hw _ _ _ _ hacc, if_neg (Ne.symm d2)]
  · intro x hx
    simp only [logs_wave, logs_apply, Gpiod.wave, List.drop_succ_cons, List.drop_zero] at hx
    rw [wave_burst_other hw hacc _ _ _ d1 _ _ x hx]
    simp [levels_set hw _ _ _ _ hacc]
  · rw [logs_level]
    simp only [Gpiod.levelsFrom, List.foldl_cons]
    have h := levels_burst_other hw hacc p.request _ _ (Ne.symm d3) n.toNat
    simp only [Gpiod.levelsFrom] at h
    rw [h]
    simp [levels_set hw _ _ _ _ hacc, if_neg (Ne.symm d2)]
  · rw [logs_level]
    simp only [Gpiod.levelsFrom, List.foldl_cons]
    have h := levels_burst_other hw hacc p.request _ _ d1 n.toNat
    simp only [Gpiod.levelsFrom] at h
    rw [h]
    simp [levels_set hw _ _ _ _ hacc]

/-! ## Sequences of operations -/

theorem step_clock (S : PodBits) (st : urj_cable_t × Gpiod) (p : gpio_params_t)
    (tms tdi n : Int) (hp : st.1.params = some p) :
    step S st (Op.clock tms tdi n) =
      some (st.1, st.2.logs
        (GpiodCall.set_value p.request (p.jtag_gpios.get GPIO_TMS) (if tms ≠ 0 then 1 else 0) ::
          GpiodCall.set_value p.request (p.jtag_gpios.get GPIO_TDI) (if tdi ≠ 0 then 1 else 0) ::
          tckBurst p.request (p.jtag_gpios.get GPIO_TCK) n.toNat)) := by
  simp only [step, clock_some _ _ p _ _ _ hp]

theorem step_get_tdo (S : PodBits) (st : urj_cable_t × Gpiod) (p : gpio_params_t)
    (hp : st.1.params = some p) :
    step S st Op.get_tdo =
      some ({ st.1 with
          params := some
            { p with
              lastout :=
                p.lastout &&& cnot (URJ_POD_CS_TMS S ||| URJ_POD_CS_TDI S ||| URJ_POD_CS_TCK S) } },
        st.2.logs [GpiodCall.set_value p.request (p.jtag_gpios.get GPIO_TCK) 0,
          GpiodCall.set_value p.request (p.jtag_gpios.get GPIO_TDI) 0,
          GpiodCall.set_value p.request (p.jtag_gpios.get GPIO_TMS) 0,
          GpiodCall.cable_wait st.1.delay,
          GpiodCall.get_value p.request (p.jtag_gpios.get GPIO_TDO)]) := by
  simp only [step, get_tdo_some S _ _ p hp]

theorem step_set_signal (S : PodBits) (st : urj_cable_t × Gpiod) (p : gpio_params_t)
    (mask val : Nat) (hp : st.1.params = some p) :
    step S st (Op.set_signal mask val) =
      some ({ st.1 with params := some { p with lastout := val &&& (mask &&& triad S) } },
        st.2.logs (signalCalls S p mask val)) := by
  simp only [step, set_signal_some S _ _ p _ _ hp]

theorem step_some (S : PodBits) (st : urj_cable_t × Gpiod) (p : gpio_params_t) (o : Op)
    (hp : st.1.params = some p) :
    ∃ st1 p1 cs, step S st o = some st1 ∧ st1.1.params = some p1 ∧
      p1.jtag_gpios = p.jtag_gpios ∧ p1.request = p.request ∧ st1.2 = st.2.logs cs := by
  cases o with
  | clock tms tdi n =>
    exact ⟨_, p, _, step_clock S st p tms tdi n hp, hp, rfl, rfl, rfl⟩
  | get_tdo =>
    exact ⟨_, _, _, step_get_tdo S st p hp, rfl, rfl, rfl, rfl⟩
  | set_signal mask val =>
    exact ⟨_, _, _, step_set_signal S st p mask val hp, rfl, rfl, rfl, rfl⟩

theorem run_some (S : PodBits) (ops : List Op) (st : urj_cable_t × Gpiod) (p : gpio_params_t)
    (hp : st.1.params = some p) :
    ∃ st1 p1 cs, run S st ops = some st1 ∧ st1.1.params = some p1 ∧
      p1.jtag_gpios = p.jtag_gpios ∧ p1.request = p.request ∧ st1.2 = st.2.logs cs := by
  induction ops generalizing st p with
  | nil => exact ⟨st, p, [], rfl, hp, rfl, rfl, (logs_nil _).symm⟩
  | cons o os ih =>
    obtain ⟨st1, p1, cs1, h1, hp1, hg1, hr1, hl1⟩ := step_some S st p o hp
    obtain ⟨st2, p2, cs2, h2, hp2, hg2, hr2, hl2⟩ := ih st1 p1 hp1
    refine ⟨st2, p2, cs1 ++ cs2, ?_, hp2, hg2.trans hg1, hr2.trans hr1, ?_⟩
    · simp only [run, h1, h2]
    · rw [hl2, hl1, logs_logs]

theorem run_append (S : PodBits) (a b : List Op) (st : urj_cable_t × Gpiod) :
    run S st (a ++ b) = (run S st a).bind (fun st1 => run S st1 b) := by
  induction a generalizing st with
  | nil => rfl
  | cons o os ih =>
    simp only [List.cons_append, run]
    cases step S st o with
    | none => rfl
    | some st1 => exact ih st1

theorem get_signal_of_tracked (S : PodBits) (hS : S.wf) (c : urj_cable_t) (p : gpio_params_t)
    (hp : c.params = some p) (k : Nat) (hk : (triad S).testBit k = true) (lvl : Int)
    (h : (p.lastout &&& 2 ^ k ≠ 0) ↔ lvl ≠ 0) :
    gpio_get_signal S c (2 ^ k) = some (if lvl ≠ 0 then 1 else 0) := by
  rw [get_signal_some S c p _ hp]
  have e : (combined S p.signals p.lastout &&& 2 ^ k ≠ 0) ↔ lvl ≠ 0 := by
    rw [← h, and_two_pow_ne_zero, and_two_pow_ne_zero, combined_testBit S hS, if_pos hk]
  by_cases hl : lvl ≠ 0
  · rw [if_pos hl, if_pos (e.2 hl)]
  · rw [if_neg hl, if_neg (fun h1 => hl (e.1 h1))]

theorem tracked_get_tdo (S : PodBits) (hS : S.wf) (st : urj_cable_t × Gpiod) (p : gpio_params_t)
    (hp : st.1.params = some p) (hacc : ∀ r l, st.2.accepts r l = true) :
    ∃ st1, step S st Op.get_tdo = some st1 ∧ Tracked S st1 := by
  obtain ⟨t1, t2, t3, -⟩ := triad_bits S hS
  have h31 : S.tdi < 32 ∧ S.tck < 32 ∧ S.tms < 32 := by
    obtain ⟨h1, h2, h3, -⟩ := hS
    omega
  have hclear : ∀ k, k < 32 → (triad S).testBit k = true →
      (p.lastout &&& cnot (URJ_POD_CS_TMS S ||| URJ_POD_CS_TDI S ||| URJ_POD_CS_TCK S))
        &&& 2 ^ k = 0 := by
    intro k hk ht
    rw [and_two_pow_eq_zero]
    rw [testBit_triad] at ht
    simp only [Bool.or_eq_true, decide_eq_true_eq] at ht
    simp only [Nat.testBit_and, testBit_cnot, Nat.testBit_or, URJ_POD_CS_TMS, URJ_POD_CS_TDI,
      URJ_POD_CS_TCK, Nat.testBit_two_pow]
    rcases ht with (ht | ht) | ht <;> simp [ht, hk]
  refine ⟨_, step_get_tdo S st p hp, ?_⟩
  simp only [Tracked, logs_level, Gpiod.levelsFrom, List.foldl_cons, List.foldl_nil,
    levels_set _ _ _ _ _ hacc, URJ_POD_CS_TDI, URJ_POD_CS_TCK, URJ_POD_CS_TMS,
    hclear _ h31.1 t1, hclear _ h31.2.1 t2, hclear _ h31.2.2 t3]
  simp [Gpiod.apply]
  exact ⟨hclear _ h31.1 t1, hclear _ h31.2.1 t2, hclear _ h31.2.2 t3⟩

theorem signalCall_full (S : PodBits) (p : gpio_params_t) (val k pin : Nat)
    (hk : (triad S).testBit k = true) :
    signalCall p (triad S) val (2 ^ k) pin =
      [GpiodCall.set_value p.request pin ((val &&& 2 ^ k : Nat) : Int)] := by
  unfold signalCall
  rw [if_pos ((and_two_pow_ne_zero _ _).2 hk)]

theorem tracked_bit (S : PodBits) (val k : Nat) (hk : (triad S).testBit k = true) :
    (val &&& triad S &&& 2 ^ k ≠ 0) ↔ ((val &&& 2 ^ k : Nat) : Int) ≠ 0 := by
  rw [and_two_pow_ne_zero, Nat.testBit_and, hk, Bool.and_true, ← and_two_pow_ne_zero]
  exact (Int.natCast_ne_zero).symm

theorem tracked_set_signal (S : PodBits) (hS : S.wf) (st : urj_cable_t × Gpiod)
    (p : gpio_params_t) (mask val : Nat) (hp : st.1.params = some p)
    (hd : p.jtag_gpios.distinct) (hacc : ∀ r l, st.2.accepts r l = true)
    (hfull : mask &&& triad S = triad S) :
    ∃ st1, step S st (Op.set_signal mask val) = some st1 ∧ Tracked S st1 := by
  obtain ⟨t1, t2, t3, -⟩ := triad_bits S hS
  obtain ⟨d1, d2, d3⟩ := hd
  refine ⟨_, step_set_signal S st p mask val hp, ?_⟩
  simp only [Tracked, signalCalls, hfull, URJ_POD_CS_TDI, URJ_POD_CS_TCK, URJ_POD_CS_TMS,
    signalCall_full S p val _ _ t1, signalCall_full S p val _ _ t2,
    signalCall_full S p val _ _ t3, logs_level, Gpiod.levelsFrom, List.cons_append,
    List.nil_append, List.foldl_cons, List.foldl_nil, levels_set _ _ _ _ _ hacc,
    tracked_bit S val _ t1, tracked_bit S val _ t2, tracked_bit S val _ t3]
  simp [d1, Ne.symm d2, Ne.symm d3]

/-- Claim C10, amended: start from any state of a cable that holds its
parameter block (every state after a successful `connect` and `init` is one),
with the TDI, TCK and TMS lines three different lines and every line write
succeeding.  After any finite sequence of `clock`, `get_tdo` and `set_signal`
calls that ends with a `get_tdo` or with a `set_signal` whose mask contains all
of TDI, TCK and TMS, each of the three bits is set in the tracked output mask
exactly when the level last driven on its line is non-zero, and `get_signal` of
TDI, TCK and TMS reports the level last driven on that line. -/
theorem tracked_after_resync (S : PodBits) (st0 : urj_cable_t × Gpiod) (p0 : gpio_params_t)
    (ops : List Op) (last : Op) (hS : S.wf) (hp : st0.1.params = some p0)
    (hd : p0.jtag_gpios.distinct) (hacc : ∀ r l, st0.2.accepts r l = true)
    (hlast : last = Op.get_tdo ∨
      ∃ mask val, last = Op.set_signal mask val ∧ mask &&& triad S = triad S) :
    ∃ st p, run S st0 (ops ++ [last]) = some st ∧ st.1.params = some p ∧
      p.jtag_gpios = p0.jtag_gpios ∧ Tracked S st ∧
      gpio_get_signal S st.1 (URJ_POD_CS_TDI S) =
        some (if st.2.level (p.jtag_gpios.get GPIO_TDI) ≠ 0 then 1 else 0) ∧
      gpio_get_signal S st.1 (URJ_POD_CS_TCK S) =
        some (if st.2.level (p.jtag_gpios.get GPIO_TCK) ≠ 0 then 1 else 0) ∧
      gpio_get_signal S st.1 (URJ_POD_CS_TMS S) =
        some (if st.2.level (p.jtag_gpios.get GPIO_TMS) ≠ 0 then 1 else 0) := by
  obtain ⟨t1, t2, t3, -⟩ := triad_bits S hS
  obtain ⟨st1, p1, cs, hrun, hp1, hg1, -, hl1⟩ := run_some S ops st0 p0 hp
  have hacc1 : ∀ r l, st1.2.accepts r l = true := by
    intro r l; rw [hl1]; exact hacc r l
  have hd1 : p1.jtag_gpios.distinct := by rw [hg1]; exact hd
  have hstep : ∃ st2, step S st1 last = some st2 ∧ Tracked S st2 := by
    rcases hlast with h | ⟨mask, val, h, hfull⟩
    · rw [h]; exact tracked_get_tdo S hS st1 p1 hp1 hacc1
    · rw [h]; exact tracked_set_signal S hS st1 p1 mask val hp1 hd1 hacc1 hfull
  obtain ⟨st2, hs2, ht2⟩ := hstep
  obtain ⟨st2', p2, -, hs2', hp2, hg2, -, -⟩ := step_some S st1 p1 last hp1
  rw [hs2] at hs2'
  simp only [Option.some.injEq] at hs2'
  subst hs2'
  have htr := ht2
  simp only [Tracked, hp2] at htr
  refine ⟨st2, p2, ?_, hp2, hg2.trans hg1, ht2, ?_, ?_, ?_⟩
  · rw [run_append, hrun]
    simp only [Option.bind, run, hs2]
  · exact get_signal_of_tracked S hS _ p2 hp2 _ t1 _ htr.1
  · exact get_signal_of_tracked S hS _ p2 hp2 _ t2 _ htr.2.1
  · exact get_signal_of_tracked S hS _ p2 hp2 _ t3 _ htr.2.2

/-! ## Concrete runs -/

/-- The state `(ready, wired)` is the one a successful `connect` and `init`
reach from a blank cable with the pin map `tdi=17 tck=22 tms=27 tdo=18`. -/
theorem bringUp_ready :
    bringUp urjtagBits board blank (some (pins 17 22 27 18)) = some (ready, wired) := rfl

/-- The witness of C1: `clock(tms=1, tdi=0, n=5)` on the initialised cable gives
5 pulses on TCK (line 22) with TMS (line 27) at 1 and TDI (line 17) at 0. -/
theorem clock_pulses_witness :
    ∃ hw1 burst, gpio_clock wired ready 1 0 5 = some hw1 ∧
      hw1.calls = wired.calls ++ burst ∧
      (countPulses false (wired.level 22) (hw1.wave 22 wired.level burst) : Int) = 5 ∧
      (∀ x, x ∈ (hw1.wave 27 wired.level burst).drop 2 → x = 1) ∧
      (∀ x, x ∈ (hw1.wave 17 wired.level burst).drop 2 → x = 0) := by
  obtain ⟨hw1, burst, h1, h2, -, -, h5, h6, h7, -, -⟩ :=
    clock_pulses wired ready readyParams 1 0 5 rfl (by decide) (fun _ _ => rfl) (by decide)
  exact ⟨hw1, burst, h1, h2, h5, h6, h7⟩

/-- The counterexample to C1 as stated: with the pin map `tdi=17 tck=27 tms=27
tdo=18`, whose TCK and TMS share line 27, `connect` and `init` succeed and
`clock(tms=1, tdi=0, n=1)` leaves the TMS line at 0, 1, 0 after the three TCK
writes, not at 1 throughout, and at 0 at the end. -/
theorem clock_shared_line_counterexample :
    ((bringUp urjtagBits board blank (some (pins 17 27 27 18))).bind fun st =>
      (gpio_clock st.2 st.1 1 0 1).map fun hw =>
        ((hw.wave 27 st.2.level (hw.calls.drop st.2.calls.length)).drop 2, hw.level 27)) =
      some ([0, 1, 0], 0) := by
  decide

/-- The witness of C2: `get_tdo` on the initialised cable after nothing else. -/
theorem get_tdo_forces_low_witness :
    ∃ c1 hw1, gpio_get_tdo urjtagBits wired ready = some (0, c1, hw1) ∧
      hw1.level 22 = 0 ∧ hw1.level 17 = 0 ∧ hw1.level 27 = 0 := by
  obtain ⟨c1, hw1, p1, h, -, -, -, -, -, -, -, -, hl⟩ :=
    get_tdo_forces_low urjtagBits wired ready readyParams (by decide) rfl
  exact ⟨c1, hw1, h, hl (fun _ _ => rfl)⟩

/-- The witness of C3 (amended): `set_signal(TMS|TDI, TMS)` on the initialised
cable returns the previous state. -/
theorem set_signal_returns_previous_witness :
    ∃ pre c1 hw1, gpio_current_signals urjtagBits ready = some pre ∧
      gpio_set_signal urjtagBits wired ready 5 4 = some (pre, c1, hw1) := by
  obtain ⟨pre, c1, hw1, post, h1, h2, -⟩ :=
    set_signal_returns_previous urjtagBits wired ready readyParams 5 4 (by decide) rfl
  exact ⟨pre, c1, hw1, h1, h2⟩

/-- The counterexample to C3 as stated: on the initialised cable, after
`set_signal(TMS, TMS)`, the call `set_signal(TDI, TDI)` returns 12 (TRST|TMS)
and `current_signals()` is then 9 (TRST|TDI): the two differ in the TMS bit
(bit 2), which is not in `mask & (TDI|TCK|TMS)`. -/
theorem set_signal_clears_unmasked_counterexample :
    ((reach urjtagBits board blank (some (pins 17 22 27 18)) [Op.set_signal 4 4]).bind fun st =>
      (gpio_set_signal urjtagBits st.2 st.1 1 1).bind fun r =>
        (gpio_current_signals urjtagBits r.2.1).map fun now =>
          (r.1, now, (1 &&& triad urjtagBits).testBit 2, r.1.testBit 2, now.testBit 2)) =
      some (12, 9, false, true, false) := by
  decide

/-- The witness of C4 (amended): the mask TRST|TMS has the bit TRST (bit 3)
outside the three. -/
theorem set_signal_drops_foreign_bit_witness :
    gpio_set_signal urjtagBits wired ready 12 4 =
      gpio_set_signal urjtagBits wired ready (12 &&& triad urjtagBits) 4 :=
  (set_signal_drops_foreign_bit urjtagBits wired ready readyParams 12 4 3 rfl
    (by decide) (by decide)).1

/-- The counterexample to C4 as stated: on the initialised cable
`set_signal(TRST, 0)` has bit 3 (TRST) in its mask, outside TDI|TCK|TMS, and
the `current_signals()` that follows has bit 3 set. -/
theorem set_signal_static_bit_counterexample :
    ((bringUp urjtagBits board blank (some (pins 17 22 27 18))).bind fun st =>
      (gpio_set_signal urjtagBits st.2 st.1 8 0).bind fun r =>
        (gpio_current_signals urjtagBits r.2.1).map fun now =>
          ((8 : Nat).testBit 3, (triad urjtagBits).testBit 3, now.testBit 3)) =
      some (true, false, true) := by
  decide

/-- The witness of C6: `set_signal(TDI, TDI|TMS)` on the initialised cable. -/
theorem set_signal_replaces_mask_witness :
    ∃ prev c1 hw1 p1, gpio_set_signal urjtagBits wired ready 1 5 = some (prev, c1, hw1) ∧
      c1.params = some p1 ∧ p1.lastout = 5 &&& 1 &&& triad urjtagBits := by
  obtain ⟨prev, c1, hw1, p1, h1, h2, h3, -⟩ :=
    set_signal_replaces_mask urjtagBits wired ready readyParams 1 5 rfl
  exact ⟨prev, c1, hw1, p1, h1, h2, h3⟩

/-- The witness of C7: the pin map `tdi=17 tck=22 tms=27 tdo=18`. -/
theorem connect_init_set_signal_witness :
    ∃ c2 hw2 pre c3 hw3 now,
      gpio_init urjtagBits board ⟨some ⟨⟨17, 22, 27, 18⟩, 0, 0, none⟩, none, 1000⟩ =
        some (URJ_STATUS_OK, c2, hw2) ∧
      gpio_get_signal urjtagBits c2 8 = some 1 ∧
      gpio_set_signal urjtagBits hw2 c2 5 4 = some (pre, c3, hw3) ∧
      pre &&& 4 = 0 ∧ pre &&& 1 = 0 ∧ pre &&& 8 ≠ 0 ∧
      gpio_current_signals urjtagBits c3 = some now ∧
      now &&& 4 ≠ 0 ∧ now &&& 1 = 0 ∧ now &&& 8 ≠ 0 := by
  obtain ⟨c1, c2, hw2, pre, c3, hw3, now, -, h2, -, h4, h5, -, -, -, h9, h10, h11, h12, h13,
      h14, h15, h16⟩ :=
    connect_init_set_signal urjtagBits board blank 17 22 27 18 (by decide) (by decide)
      (by decide) (by decide) (by decide) (by decide)
  have e : c1 = ⟨some ⟨⟨17, 22, 27, 18⟩, 0, 0, none⟩, none, 1000⟩ := by
    have h : some c1 = some ⟨some ⟨⟨17, 22, 27, 18⟩, 0, 0, none⟩, none, 1000⟩ := h2.symm.trans rfl
    exact Option.some.inj h
  subst e
  exact ⟨c2, hw2, pre, c3, hw3, now, h4, h5, h9, h10, h11, h12, h13, h14, h15, h16⟩

/-- Claim C8, the code at the failing input: a cable configured with
`tdi=17 tck=22 tms=27 tdo=18` and then connected again with `tck=5` alone does
not keep the omitted keys.  The second `connect` starts from a fresh block with
all four pins unset, fails with the syntax error, and leaves the cable with the
old map, `tck` still 22. -/
theorem reconnect_forgets_pins :
    ∃ c1, gpio_connect true blank (some (pins 17 22 27 18)) =
        ⟨URJ_STATUS_OK, none, false, some c1, c1.params⟩ ∧
      c1.params = some ⟨⟨17, 22, 27, 18⟩, 0, 0, none⟩ ∧
      gpio_connect true c1 (some [⟨URJ_CABLE_PARAM_KEY_TCK, 5⟩]) =
        ⟨URJ_STATUS_FAIL, some URJ_ERROR_SYNTAX, true, some c1,
          some ⟨⟨GPIO_UNSET, 5, GPIO_UNSET, GPIO_UNSET⟩, 0, 0, none⟩⟩ :=
  ⟨⟨some ⟨⟨17, 22, 27, 18⟩, 0, 0, none⟩, none, 1000⟩, by decide, rfl, by decide⟩

/-- Claim C9, the code at the failing input: on the initialised cable, which
holds the request with handle 1, two `done()` calls in a row issue two
releases of that same handle; the cable still names the handle after each. -/
theorem done_twice_releases_twice :
    ((bringUp urjtagBits board blank (some (pins 17 22 27 18))).bind fun st =>
      (gpio_done st.2 st.1).bind fun hw1 =>
        (gpio_done hw1 st.1).map fun hw2 =>
          (st.1.params.map (fun p => p.request), hw2.calls.drop st.2.calls.length)) =
      some (some (some 1), [GpiodCall.release (some 1), GpiodCall.release (some 1)]) := by
  decide

/-- The witness of C10 (amended): a clock burst followed by a `set_signal`
over all three signals. -/
theorem tracked_after_resync_witness :
    ∃ st, run urjtagBits (ready, wired) ([Op.clock 1 0 5] ++ [Op.set_signal 7 4]) = some st ∧
      Tracked urjtagBits st := by
  obtain ⟨st, p, h1, -, -, h4, -⟩ :=
    tracked_after_resync urjtagBits (ready, wired) readyParams [Op.clock 1 0 5]
      (Op.set_signal 7 4) (by decide) rfl (by decide) (fun _ _ => rfl)
      (Or.inr ⟨7, 4, rfl, by decide⟩)
  exact ⟨st, h1, h4⟩

/-- The counterexample to C10 as stated, on a cable connected and initialised
with four different lines.  After `set_signal(TMS, TMS)` and then
`set_signal(TDI, TDI)` the TMS line (27) is still at the non-zero level 4 while
the TMS bit of the tracked output mask is clear; and after
`clock(tms=1, tdi=0, n=1)` alone the TMS line is at level 1 while the TMS bit
of the tracked output mask is clear. -/
theorem tracked_mask_counterexample :
    (reach urjtagBits board blank (some (pins 17 22 27 18))
        [Op.set_signal 4 4, Op.set_signal 1 1]).map
      (fun st => (st.1.params.map (fun p => p.lastout &&& URJ_POD_CS_TMS urjtagBits),
        st.2.level 27, decide (Tracked urjtagBits st))) = some (some 0, 4, false) ∧
    (reach urjtagBits board blank (some (pins 17 22 27 18)) [Op.clock 1 0 1]).map
      (fun st => (st.1.params.map (fun p => p.lastout &&& URJ_POD_CS_TMS urjtagBits),
        st.2.level 27, decide (Tracked urjtagBits st))) = some (some 0, 1, false) := by
  decide

end GpioCable
